import Mathlib

/-!
Verification of the concap console library, source file concap/__init__.py.

Modelling conventions:
- Python strings are lists of characters.
- The injected input function is modelled by an InputResult value giving the
  outcome of one read: a normal line, a keyboard interrupt, or end of input;
  input_s maps that outcome to the string the Python function returns.
- The injected output function tree.print is modelled by a trace of Event
  values. The trace also records entry into a handler body and each call of an
  inner function wrapped by argparse_wrapper, and it has constructors for a
  write to the process error stream, a process exit and a raised exception so
  that their absence can be stated: the overridden methods of
  ConsoleArgumentParser only ever call tree.print and return.
- argparse.ArgumentParser is external library code; its behaviour for a parser
  holding only store_true flags, the shape built by the users of
  ConsoleArgumentParser as in concap_test/test1.py, is modelled by ParserSpec
  and pkaScan: a token matching a flag option string sets that flag, a help
  token runs the help action, every other token is collected and returned as
  an extra by parse_known_args. The exact wording of the usage and help texts
  is abstracted; no claim depends on it.
-/

namespace Concap

/-- Model of the Python call line.partition with a single space separator,
keeping the first and third components: the text before the first space and
the text after it. When no space occurs the whole line is the first component
and the second is empty. -/
def pyPartitionSpace : List Char → List Char × List Char
  | [] => ([], [])
  | c :: t =>
    if c = ' ' then ([], t)
    else
      let r := pyPartitionSpace t
      (c :: r.1, r.2)

/-- Model of the Python call arg.split with a single space separator: split at
every space, so the empty string yields the one element list holding the empty
string, exactly as in Python. -/
def pySplitSpace : List Char → List (List Char)
  | [] => [[]]
  | c :: t =>
    match pySplitSpace t with
    | [] => [[]]
    | w :: ws => if c = ' ' then [] :: w :: ws else (c :: w) :: ws

/-- Boolean test that the first list is an initial segment of the second; used
to state the meaning of a zero result of pyFind. -/
def strStarts : List Char → List Char → Bool
  | [], _ => true
  | _ :: _, [] => false
  | a :: as, b :: bs => (a == b) && strStarts as bs

/-- Model of the Python method str.find restricted to what find_command needs:
the least index at which the pattern occurs in the string, and -1 when it does
not occur. -/
def pyFind : List Char → List Char → Int
  | [], sub => if strStarts sub [] then 0 else -1
  | a :: t, sub =>
    if strStarts sub (a :: t) then 0
    else if pyFind t sub = -1 then -1 else pyFind t sub + 1

/-- Join of a list of strings with single spaces, the Python join used in the
unrecognized arguments message. -/
def joinSpace : List (List Char) → List Char
  | [] => []
  | [x] => x
  | x :: xs => x ++ ' ' :: joinSpace xs

/-- One optional store_true argument of a parser: its option strings, for
example -y, -f and --force, and its destination name. -/
structure FlagSpec where
  options : List (List Char)
  dest : List Char
  deriving DecidableEq

/-- Configuration of an argparse parser as used through
ConsoleArgumentParser: a program name, store_true flags, and whether the
automatic help option is enabled, which is the argparse default. -/
structure ParserSpec where
  prog : List Char
  flags : List FlagSpec
  addHelp : Bool
  deriving DecidableEq

/-- Result namespace of a parse: each destination with its boolean value. -/
abbrev ArgNamespace := List (List Char × Bool)

/-- Handlers as data so that a dispatch trace can record which one ran.
logout_func and command_not_found are the two handlers the library itself
defines; user models an arbitrary plain handler, sets telling whether its body
assigns True to the terminated flag; argWrapped models the handler returned by
argparse_wrapper around the inner function numbered idf. -/
inductive Handler where
  | logout_func
  | command_not_found
  | user (idf : Nat) (sets : Bool)
  | argWrapped (p : ParserSpec) (idf : Nat)
  deriving DecidableEq

/-- Observable events of a dispatch. printOut is a call of the loop output
function tree.print; stderrOut, procExit and raised are produced nowhere in
this development and exist so that their absence is a statement about the
code: the overridden _print_message, exit and error of ConsoleArgumentParser
only ever call tree.print. invoked records entry into a handler body with its
arguments; innerCalled records a call of the inner function wrapped by
argparse_wrapper together with the parse result it received. -/
inductive Event where
  | printOut (s : List Char)
  | stderrOut (s : List Char)
  | procExit (status : Int)
  | raised (msg : List Char)
  | invoked (h : Handler) (cmd arg : List Char)
  | innerCalled (idf : Nat) (cmd : List Char) (res : Option ArgNamespace)
  deriving DecidableEq

/-- Abstraction of the argparse usage text; its exact wording carries no
claim, only that it is nonempty and printed. -/
def format_usage (p : ParserSpec) : List Char :=
  "usage: ".data ++ p.prog ++ "\n".data

/-- Abstraction of the argparse help text. -/
def format_help (p : ParserSpec) : List Char :=
  format_usage p ++ "options: -h, --help".data

/-- First flag whose option strings contain the token, giving its destination,
as argparse option lookup does for store_true flags. -/
def lookupFlag (flags : List FlagSpec) (tok : List Char) : Option (List Char) :=
  match flags with
  | [] => none
  | f :: rest => if tok ∈ f.options then some f.dest else lookupFlag rest tok

/-- Namespace with every destination at its store_true default False. -/
def nsInit (flags : List FlagSpec) : ArgNamespace :=
  flags.map (fun f => (f.dest, false))

/-- Assign True to one destination of a namespace. -/
def nsSet (ns : ArgNamespace) (dest : List Char) : ArgNamespace :=
  ns.map (fun q => if q.1 = dest then (q.1, true) else q)

/-- Modelled behaviour of the external library method
argparse.ArgumentParser.parse_known_args for a parser holding only store_true
flags: scan the tokens left to right; a help token prints the help text
through the overridden _print_message and then calls the overridden exit,
which does nothing, so scanning continues; a token matching a flag sets it;
any other token is collected as an extra to be returned. -/
def pkaScan (p : ParserSpec) : List (List Char) → ArgNamespace →
    ArgNamespace × List (List Char) × List Event
  | [], ns => (ns, [], [])
  | tok :: rest, ns =>
    if p.addHelp = true ∧ (tok = "-h".data ∨ tok = "--help".data) then
      let r := pkaScan p rest ns
      (r.1, r.2.1, Event.printOut (format_help p) :: r.2.2)
    else
      match lookupFlag p.flags tok with
      | some d => pkaScan p rest (nsSet ns d)
      | none =>
        let r := pkaScan p rest ns
        (r.1, tok :: r.2.1, r.2.2)

/-- parse_known_args of the parser: namespace, extra tokens, and output. -/
def parse_known_args (p : ParserSpec) (args : List (List Char)) :
    ArgNamespace × List (List Char) × List Event :=
  pkaScan p args (nsInit p.flags)

/-- ConsoleArgumentParser._print_message: route the message to tree.print
when it is nonempty. -/
def CAP_print_message (message : List Char) : List Event :=
  if message = [] then [] else [Event.printOut message]

/-- ConsoleArgumentParser.exit: print the message when present and return,
attempting no process exit. -/
def CAP_exit (_status : Int) (message : Option (List Char)) : List Event :=
  match message with
  | some m => CAP_print_message m
  | none => []

/-- argparse.ArgumentParser.exit of the base class, shown for contrast with
the override: it would write to the process error stream and exit the
process. It is produced nowhere in this development. -/
def base_exit (status : Int) (message : Option (List Char)) : List Event :=
  (match message with
   | some m => [Event.stderrOut m]
   | none => []) ++ [Event.procExit status]

/-- ConsoleArgumentParser.error: print the usage text, then exit with status 2
and the formatted error message; the overridden exit returns, so error
returns as well instead of terminating. -/
def CAP_error (p : ParserSpec) (message : List Char) : List Event :=
  CAP_print_message (format_usage p) ++
    CAP_exit 2 (some ("Error: ".data ++ message ++ "\n".data))

/-- ConsoleArgumentParser.parse_args: run parse_known_args; when a help token
is among the arguments return None; when extra tokens remain, report them
through error and return None; otherwise return the parsed namespace. -/
def parse_args (p : ParserSpec) (args : List (List Char)) :
    Option ArgNamespace × List Event :=
  let r := parse_known_args p args
  if "-h".data ∈ args ∨ "--help".data ∈ args then (none, r.2.2)
  else if r.2.1 ≠ [] then
    (none, r.2.2 ++ CAP_error p ("unrecognized arguments: ".data ++ joinSpace r.2.1))
  else (some r.1, r.2.2)

/-- The registry: a Python dict modelled as an association list with unique
keys, the first binding of a key giving its value. -/
def dictGet (k : List Char) : List (List Char × Handler) → Option Handler
  | [] => none
  | q :: d => if q.1 = k then some q.2 else dictGet k d

/-- Membership test of the registry. -/
def dictContains (k : List Char) (d : List (List Char × Handler)) : Bool :=
  d.any (fun q => q.1 == k)

/-- Python dict assignment: replace the value in place when the key is
present, append a new binding otherwise. -/
def dictInsert (k : List Char) (v : Handler) :
    List (List Char × Handler) → List (List Char × Handler)
  | [] => [(k, v)]
  | q :: d => if q.1 = k then (k, v) :: d else q :: dictInsert k v d

/-- Loop state of CommandTree: the registry and the terminated flag. The
injected input and print functions are modelled at the call sites by
InputResult arguments and by the event trace. -/
structure CommandTree where
  funcs : List (List Char × Handler)
  terminated : Bool
  deriving DecidableEq

/-- CommandTree construction: empty registry, flag False, and the logout
command bound to the handler that assigns True to the flag. -/
def CommandTree.new : CommandTree :=
  { funcs := dictInsert "logout".data Handler.logout_func [],
    terminated := false }

/-- Message of the NameError raised by add_command on a duplicate name; the
spec names this error DuplicateCommandError. Character 39 is the
apostrophe. -/
def dupMsg (command : List Char) : List Char :=
  "command ".data ++ Char.ofNat 39 :: command ++ Char.ofNat 39 :: " already exists".data

/-- add_command with the decorated function already applied: raise the
duplicate error when the name exists and override is False, otherwise bind the
name to the function. The raise happens before any mutation, so the error case
leaves the registry unchanged. -/
def add_command (t : CommandTree) (command : List Char) (override : Bool)
    (func : Handler) : Except (List Char) CommandTree :=
  if dictContains command t.funcs && !override then
    Except.error (dupMsg command)
  else Except.ok { t with funcs := dictInsert command func t.funcs }

/-- list_command: the registered names in insertion order. -/
def list_command (t : CommandTree) : List (List Char) :=
  t.funcs.map (fun q => q.1)

/-- find_command: every registered name at which the keyword occurs at index
zero; all names when the keyword is omitted. -/
def find_command (t : CommandTree) (keyword : Option (List Char)) :
    List (List Char) :=
  match keyword with
  | none => list_command t
  | some kw => (list_command t).filter (fun cmd => pyFind cmd kw == 0)

/-- Outcome of one read of the injected input function. -/
inductive InputResult where
  | line (s : List Char)
  | interrupt
  | eof
  deriving DecidableEq

/-- input_s: the read line on success, the interrupt string on a keyboard
interrupt, the eof string at end of input. -/
def input_s (_prompt interrupt eof : List Char) (r : InputResult) : List Char :=
  match r with
  | InputResult.line s => s
  | InputResult.interrupt => interrupt
  | InputResult.eof => eof

/-- Run one handler on the tree: logout_func assigns True to the flag;
command_not_found prints its message; a user handler optionally assigns True
to the flag; an argWrapped handler splits the argument string at spaces,
parses the tokens, and then calls the inner function with the parse result
unconditionally, None included, exactly as the source does. -/
def runHandler (h : Handler) (t : CommandTree) (cmd arg : List Char) :
    CommandTree × List Event :=
  match h with
  | Handler.logout_func =>
    ({ t with terminated := true }, [Event.invoked Handler.logout_func cmd arg])
  | Handler.command_not_found =>
    (t, [Event.invoked Handler.command_not_found cmd arg,
         Event.printOut (cmd ++ ": command not found".data)])
  | Handler.user i sets =>
    (if sets then { t with terminated := true } else t,
     [Event.invoked (Handler.user i sets) cmd arg])
  | Handler.argWrapped p idf =>
    let r := parse_args p (pySplitSpace arg)
    (t, Event.invoked (Handler.argWrapped p idf) cmd arg ::
        r.2 ++ [Event.innerCalled idf cmd r.1])

/-- run_command: look the name up and run the bound handler, with the
command_not_found fallback when the name is absent. -/
def run_command (t : CommandTree) (command arg : List Char) :
    CommandTree × List Event :=
  match dictGet command t.funcs with
  | some h => runHandler h t command arg
  | none => runHandler Handler.command_not_found t command arg

/-- wait_input: assign False to the flag, read one line, cut it at the first
space, and dispatch when the part before the first space is nonempty. -/
def wait_input (t : CommandTree) (prompt interrupt eof : List Char)
    (inp : InputResult) : CommandTree × List Event :=
  let t1 : CommandTree := { t with terminated := false }
  let input_c := input_s prompt interrupt eof inp
  let pr := pyPartitionSpace input_c
  if pr.1.length ≠ 0 then run_command t1 pr.1 pr.2 else (t1, [])

/-- interactive: while the flag is False run wait_input. The list gives the
successive outcomes of the injected input function; the result is the final
tree, the event trace and the number of steps run, or none when the given
outcomes are exhausted with the flag still False. -/
def interactive : CommandTree → List Char → List Char → List Char →
    List InputResult → Option (CommandTree × List Event × Nat)
  | t, prompt, intr, eof, ins =>
    if t.terminated then some (t, [], 0)
    else
      match ins with
      | [] => none
      | r :: rs =>
        let s := wait_input t prompt intr eof r
        match interactive s.1 prompt intr eof rs with
        | some q => some (q.1, s.2 ++ q.2.1, q.2.2 + 1)
        | none => none

/-- Default prompt of wait_input and interactive. -/
def defPrompt : List Char := ">>> ".data

/-- Default interrupt string: empty. -/
def defInterrupt : List Char := []

/-- Default eof string of input_s, wait_input and interactive. -/
def defEof : List Char := "logout".data

/-- Recognizer of tree.print events. -/
def isPrintOut : Event → Bool
  | Event.printOut _ => true
  | _ => false

/-- Recognizer of handler entry events. -/
def isInvoked : Event → Bool
  | Event.invoked _ _ _ => true
  | _ => false

/-- Handler entries of a trace: the dispatches it performed. -/
def invokedEvents (evs : List Event) : List Event :=
  evs.filter isInvoked

/-- Strings printed through the loop output function. -/
def prints (evs : List Event) : List (List Char) :=
  evs.filterMap (fun e => match e with
    | Event.printOut s => some s
    | _ => none)

/-- An event that is neither a process error stream write, nor a process
exit, nor a raised exception. -/
def diagOk : Event → Bool
  | Event.stderrOut _ => false
  | Event.procExit _ => false
  | Event.raised _ => false
  | _ => true

/-- True when every diagnostic of the trace went through the loop output
function: no process error stream write, no process exit, no exception. -/
def diagThroughTree (evs : List Event) : Bool := evs.all diagOk

/-- Whether a handler body assigns True to the terminated flag. -/
def setsFlag : Handler → Bool
  | Handler.logout_func => true
  | Handler.user _ sets => sets
  | _ => false

/-- The handler a step would run on the given line: the bound handler or the
fallback when the part before the first space is nonempty, nothing
otherwise. -/
def stepHandler (t : CommandTree) (line : List Char) : Option Handler :=
  if (pyPartitionSpace line).1.length ≠ 0 then
    some ((dictGet (pyPartitionSpace line).1 t.funcs).getD Handler.command_not_found)
  else none

/-- Whether the handler a step would run assigns True to the flag. -/
def stepSetsFlag (t : CommandTree) (line : List Char) : Bool :=
  match stepHandler t line with
  | some h => setsFlag h
  | none => false

/-- A parser requiring a store_true flag force with option strings -y, -f and
--force, as in the scenario of the spec and in concap_test/test1.py. -/
def forceParser : ParserSpec :=
  { prog := "test".data,
    flags := [{ options := ["-y".data, "-f".data, "--force".data],
                dest := "force".data }],
    addHelp := true }

/-- A fresh tree whose terminated flag is already True, used to examine calls
made after a previous step terminated the loop. -/
def tTerm : CommandTree := { CommandTree.new with terminated := true }

end Concap

namespace Concap

theorem pyPartitionSpace_spec (s : List Char) :
    (pyPartitionSpace s).1.contains ' ' = false ∧
    (s = (pyPartitionSpace s).1 ++ ' ' :: (pyPartitionSpace s).2 ∨
      ((pyPartitionSpace s).1 = s ∧ (pyPartitionSpace s).2 = [])) := by
  induction s with
  | nil => simp [pyPartitionSpace]
  | cons c t ih =>
    by_cases hc : c = ' '
    · subst hc
      simp [pyPartitionSpace]
    · obtain ⟨ih1, ih2⟩ := ih
      constructor
      · have hcc : (' ' == c) = false := by
          rw [beq_eq_false_iff_ne]
          exact fun h => hc h.symm
        have hun : pyPartitionSpace (c :: t)
            = (c :: (pyPartitionSpace t).1, (pyPartitionSpace t).2) := by
          simp [pyPartitionSpace, hc]
        rw [hun, List.contains_cons, hcc, ih1]
        rfl
      · rcases ih2 with h | ⟨h1, h2⟩
        · left
          simp only [pyPartitionSpace, if_neg hc, List.cons_append]
          exact congrArg (c :: ·) h
        · right
          simp [pyPartitionSpace, if_neg hc, h1, h2]

theorem pyFind_zero_iff (s sub : List Char) :
    pyFind s sub = 0 ↔ strStarts sub s = true := by
  cases s with
  | nil =>
    by_cases h : strStarts sub [] = true
    · simp [pyFind, h]
    · rw [show pyFind [] sub = -1 from by simp [pyFind, h]]
      constructor
      · intro h0
        exact absurd h0 (by decide)
      · intro hh
        exact absurd hh h
  | cons a t =>
    by_cases h : strStarts sub (a :: t) = true
    · simp [pyFind, h]
    · rw [show pyFind (a :: t) sub
          = (if pyFind t sub = -1 then -1 else pyFind t sub + 1) from by
        simp [pyFind, h]]
      constructor
      · intro h0
        by_cases hr : pyFind t sub = -1
        · rw [if_pos hr] at h0
          exact absurd h0 (by decide)
        · rw [if_neg hr] at h0
          exact absurd (by omega : pyFind t sub = -1) hr
      · intro hh
        exact absurd hh h

theorem pyFind_beq_zero (s sub : List Char) :
    (pyFind s sub == 0) = strStarts sub s := by
  by_cases h : strStarts sub s = true
  · have h0 : pyFind s sub = 0 := (pyFind_zero_iff s sub).mpr h
    simp [h0, h]
  · have hne : pyFind s sub ≠ 0 := fun h0 => h ((pyFind_zero_iff s sub).mp h0)
    have hb : strStarts sub s = false := by
      cases hs : strStarts sub s
      · rfl
      · exact absurd hs h
    rw [hb]
    exact beq_eq_false_iff_ne.mpr hne

theorem strStarts_nil (c : List Char) : strStarts [] c = true := by
  cases c <;> rfl

theorem dictGet_dictInsert (k : List Char) (v : Handler) :
    ∀ d : List (List Char × Handler), dictGet k (dictInsert k v d) = some v := by
  intro d
  induction d with
  | nil =>
    show dictGet k [(k, v)] = some v
    simp [dictGet]
  | cons q rest ih =>
    show dictGet k (if q.1 = k then (k, v) :: rest else q :: dictInsert k v rest)
      = some v
    by_cases hq : q.1 = k
    · rw [if_pos hq]
      simp [dictGet]
    · rw [if_neg hq]
      show (if q.1 = k then some q.2 else dictGet k (dictInsert k v rest)) = some v
      rw [if_neg hq]
      exact ih

theorem dictContains_of_get {k : List Char} {v : Handler} :
    ∀ (d : List (List Char × Handler)), dictGet k d = some v →
      dictContains k d = true := by
  intro d
  induction d with
  | nil => intro h; simp [dictGet] at h
  | cons q rest ih =>
    intro h
    by_cases hq : q.1 = k
    · simp [dictContains, List.any_cons, hq]
    · simp only [dictGet, if_neg hq] at h
      have hr : rest.any (fun q => q.1 == k) = true := ih h
      show (q :: rest).any (fun q => q.1 == k) = true
      rw [List.any_cons, hr, Bool.or_true]

theorem pkaScan_all_printOut (p : ParserSpec) :
    ∀ (args : List (List Char)) (ns : ArgNamespace),
      ((pkaScan p args ns).2.2).all isPrintOut = true := by
  intro args
  induction args with
  | nil => intro ns; rfl
  | cons tok rest ih =>
    intro ns
    by_cases hc : p.addHelp = true ∧ (tok = "-h".data ∨ tok = "--help".data)
    · simp [pkaScan, hc, isPrintOut, ih]
    · cases hl : lookupFlag p.flags tok with
      | some d => simp [pkaScan, hc, hl, ih]
      | none => simp [pkaScan, hc, hl, ih]

theorem CAP_print_message_all_printOut (m : List Char) :
    (CAP_print_message m).all isPrintOut = true := by
  by_cases h : m = []
  · simp [CAP_print_message, h]
  · simp [CAP_print_message, h, isPrintOut]

theorem CAP_error_all_printOut (p : ParserSpec) (m : List Char) :
    (CAP_error p m).all isPrintOut = true := by
  simp [CAP_error, CAP_exit, List.all_append, CAP_print_message_all_printOut]

theorem parse_args_all_printOut (p : ParserSpec) (args : List (List Char)) :
    ((parse_args p args).2).all isPrintOut = true := by
  unfold parse_args parse_known_args
  by_cases h1 : "-h".data ∈ args ∨ "--help".data ∈ args
  · simp [h1, pkaScan_all_printOut]
  · by_cases h2 : (pkaScan p args (nsInit p.flags)).2.1 ≠ []
    · simp [h1, h2, List.all_append, pkaScan_all_printOut, CAP_error_all_printOut]
    · simp [h1, h2, pkaScan_all_printOut]

theorem isInvoked_false_of_printOut {e : Event} (h : isPrintOut e = true) :
    isInvoked e = false := by
  cases e <;> simp [isPrintOut, isInvoked] at h ⊢

theorem filter_isInvoked_eq_nil {evs : List Event}
    (h : evs.all isPrintOut = true) : evs.filter isInvoked = [] := by
  rw [List.filter_eq_nil_iff]
  intro e he
  have := (List.all_eq_true.mp h) e he
  simp [isInvoked_false_of_printOut this]

theorem diagOk_of_printOut {e : Event} (h : isPrintOut e = true) :
    diagOk e = true := by
  cases e <;> simp [isPrintOut, diagOk] at h ⊢

theorem all_diagOk_of_printOut {evs : List Event}
    (h : evs.all isPrintOut = true) : evs.all diagOk = true := by
  rw [List.all_eq_true] at h ⊢
  exact fun e he => diagOk_of_printOut (h e he)

theorem invokedEvents_runHandler (h : Handler) (t : CommandTree)
    (cmd arg : List Char) :
    invokedEvents (runHandler h t cmd arg).2 = [Event.invoked h cmd arg] := by
  cases h with
  | logout_func => rfl
  | command_not_found => rfl
  | user i sets => rfl
  | argWrapped p idf =>
    simp only [runHandler, invokedEvents, List.filter_cons, List.filter_append]
    rw [filter_isInvoked_eq_nil (parse_args_all_printOut p (pySplitSpace arg))]
    rfl

theorem run_command_flag (t : CommandTree) (c a : List Char)
    (h : setsFlag ((dictGet c t.funcs).getD Handler.command_not_found) = false)
    (ht : t.terminated = false) :
    (run_command t c a).1.terminated = false := by
  unfold run_command
  cases hg : dictGet c t.funcs with
  | none => simp [runHandler, ht]
  | some hd =>
    rw [hg] at h
    simp only [Option.getD_some] at h
    cases hd with
    | logout_func => simp [setsFlag] at h
    | command_not_found => simp [runHandler, ht]
    | user i sets =>
      simp only [setsFlag] at h
      simp [runHandler, h, ht]
    | argWrapped p idf => simp [runHandler, ht]

/-- Claim C5: registering a second handler under an existing name with
override False fails with the duplicate command error and leaves the mapping
unchanged, the raise preceding any mutation; with override True the
registration succeeds, the new handler replaces the old one, and a subsequent
dispatch of that name invokes only the new handler. -/
theorem C5_register_duplicate (t : CommandTree) (name : List Char)
    (hOld hNew : Handler) (arg : List Char)
    (hmem : dictGet name t.funcs = some hOld) :
    add_command t name false hNew = Except.error (dupMsg name) ∧
    ∃ t2, add_command t name true hNew = Except.ok t2 ∧
      dictGet name t2.funcs = some hNew ∧
      invokedEvents (run_command t2 name arg).2
        = [Event.invoked hNew name arg] := by
  have hc : dictContains name t.funcs = true := dictContains_of_get t.funcs hmem
  constructor
  · simp [add_command, hc]
  · refine ⟨{ t with funcs := dictInsert name hNew t.funcs }, ?_, ?_, ?_⟩
    · simp [add_command, hc]
    · exact dictGet_dictInsert name hNew t.funcs
    · have hg : dictGet name (dictInsert name hNew t.funcs) = some hNew :=
        dictGet_dictInsert name hNew t.funcs
      simp [run_command, hg, invokedEvents_runHandler]

/-- Witness for C5 at a concrete input: the pre-registered logout command. -/
theorem C5_register_duplicate_witness :
    add_command CommandTree.new "logout".data false (Handler.user 7 false)
      = Except.error (dupMsg "logout".data) ∧
    ∃ t2, add_command CommandTree.new "logout".data true (Handler.user 7 false)
        = Except.ok t2 ∧
      dictGet "logout".data t2.funcs = some (Handler.user 7 false) ∧
      invokedEvents (run_command t2 "logout".data "x".data).2
        = [Event.invoked (Handler.user 7 false) "logout".data "x".data] :=
  C5_register_duplicate CommandTree.new "logout".data Handler.logout_func
    (Handler.user 7 false) "x".data (by decide)

/-- Claim C6: dispatch of an unregistered name does not raise, writes exactly
the single command not found message for that name to the output channel, and
performs no other action: the tree, registry and flag included, is returned
unchanged. -/
theorem C6_not_found (t : CommandTree) (name arg : List Char)
    (habs : dictGet name t.funcs = none) :
    run_command t name arg
      = (t, [Event.invoked Handler.command_not_found name arg,
             Event.printOut (name ++ ": command not found".data)]) ∧
    prints (run_command t name arg).2
      = [name ++ ": command not found".data] := by
  have h1 : run_command t name arg
      = (t, [Event.invoked Handler.command_not_found name arg,
             Event.printOut (name ++ ": command not found".data)]) := by
    simp [run_command, habs, runHandler]
  exact ⟨h1, by rw [h1]; rfl⟩

/-- Witness for C6 at a concrete input: the name foo is not registered in a
fresh tree. -/
theorem C6_not_found_witness :
    run_command CommandTree.new "foo".data "bar".data
      = (CommandTree.new,
         [Event.invoked Handler.command_not_found "foo".data "bar".data,
          Event.printOut ("foo".data ++ ": command not found".data)]) ∧
    prints (run_command CommandTree.new "foo".data "bar".data).2
      = ["foo".data ++ ": command not found".data] :=
  C6_not_found CommandTree.new "foo".data "bar".data (by decide)

/-- Claim C7: dispatch of a registered name invokes exactly its handler,
synchronously, with the tree, the name and the argument string, and invokes
no other handler and never the not found fallback: the trace holds exactly
one handler entry, that of the registered handler. -/
theorem C7_dispatch_registered (t : CommandTree) (name arg : List Char)
    (hnd : Handler) (hreg : dictGet name t.funcs = some hnd) :
    run_command t name arg = runHandler hnd t name arg ∧
    invokedEvents (run_command t name arg).2
      = [Event.invoked hnd name arg] := by
  have h1 : run_command t name arg = runHandler hnd t name arg := by
    simp [run_command, hreg]
  exact ⟨h1, by rw [h1]; exact invokedEvents_runHandler hnd t name arg⟩

/-- Witness for C7 at a concrete input: the pre-registered logout command. -/
theorem C7_dispatch_registered_witness :
    run_command CommandTree.new "logout".data "now".data
      = runHandler Handler.logout_func CommandTree.new "logout".data "now".data ∧
    invokedEvents (run_command CommandTree.new "logout".data "now".data).2
      = [Event.invoked Handler.logout_func "logout".data "now".data] :=
  C7_dispatch_registered CommandTree.new "logout".data "now".data
    Handler.logout_func (by decide)

/-- Claim C8: find_command with a keyword returns exactly the subset of
list_command whose names start with the keyword, case sensitively; the empty
keyword returns the whole listing, a keyword matching nothing returns the
empty list, and an omitted keyword returns all names. Both functions are
pure: they return values without touching the tree. -/
theorem C8_find_list (t : CommandTree) (kw : List Char) :
    find_command t (some kw) = (list_command t).filter (fun c => strStarts kw c) ∧
    find_command t none = list_command t ∧
    find_command t (some []) = list_command t ∧
    ((list_command t).all (fun c => !strStarts kw c) = true →
      find_command t (some kw) = []) := by
  have hfil : find_command t (some kw)
      = (list_command t).filter (fun c => strStarts kw c) := by
    show (list_command t).filter (fun cmd => pyFind cmd kw == 0) = _
    exact List.filter_congr (fun c _ => pyFind_beq_zero c kw)
  refine ⟨hfil, rfl, ?_, ?_⟩
  · show (list_command t).filter (fun cmd => pyFind cmd [] == 0) = list_command t
    rw [List.filter_eq_self]
    intro c _
    rw [pyFind_beq_zero]
    exact strStarts_nil c
  · intro hall
    rw [hfil, List.filter_eq_nil_iff]
    intro c hc
    have h2 := (List.all_eq_true.mp hall) c hc
    have hb : strStarts kw c = false := by
      cases hs : strStarts kw c
      · rfl
      · rw [hs] at h2
        exact absurd h2 (by decide)
    simp [hb]

/-- Witness for C8 at a concrete input: no command of a fresh tree starts
with zz, and the matching subset is empty. -/
theorem C8_find_list_witness :
    find_command CommandTree.new (some "zz".data) = [] :=
  (C8_find_list CommandTree.new "zz".data).2.2.2 (by decide)

/-- Claim C9: a fresh tree has the logout command pre-registered; when the
input function reports end of input it returns the default eof fallback
string logout, a single step dispatches the logout handler exactly as if the
user had typed the line logout, and the terminated flag is True after that
step. -/
theorem C9_eof_logout :
    dictGet "logout".data CommandTree.new.funcs = some Handler.logout_func ∧
    input_s defPrompt defInterrupt defEof InputResult.eof = "logout".data ∧
    wait_input CommandTree.new defPrompt defInterrupt defEof InputResult.eof
      = wait_input CommandTree.new defPrompt defInterrupt defEof
          (InputResult.line "logout".data) ∧
    (wait_input CommandTree.new defPrompt defInterrupt defEof
        InputResult.eof).1.terminated = true ∧
    invokedEvents (wait_input CommandTree.new defPrompt defInterrupt defEof
        InputResult.eof).2
      = [Event.invoked Handler.logout_func "logout".data []] := by
  decide

/-- Claim C2, corrected: the code splits the line at the first space
character only, not at the first whitespace character, and dispatches exactly
when the part before the first space is nonempty. A line consisting of a
single tab is empty after trimming whitespace, yet a dispatch occurs on it:
the not found fallback runs with the tab as the command name. The second
conjunct shows the split is at a space, not at general whitespace: a tab
inside the line does not separate command from argument. -/
theorem C2_counterexample :
    invokedEvents (wait_input CommandTree.new defPrompt defInterrupt defEof
        (InputResult.line ['\t'])).2
      = [Event.invoked Handler.command_not_found ['\t'] []] ∧
    pyPartitionSpace ['a', '\t', 'b'] = (['a', '\t', 'b'], []) := by
  decide

/-- Claim C2 as amended: wait_input cuts the line at the first space
character, the part before it holding no space and the line being recomposed
from the two parts when a space occurs at all; the step resets the flag
unconditionally and dispatches exactly when the part before the first space
is nonempty, so a line that is empty or starts with a space produces zero
dispatches. -/
theorem C2_split_at_space (t : CommandTree) (prompt intr eof s : List Char) :
    (pyPartitionSpace s).1.contains ' ' = false ∧
    (s = (pyPartitionSpace s).1 ++ ' ' :: (pyPartitionSpace s).2 ∨
      ((pyPartitionSpace s).1 = s ∧ (pyPartitionSpace s).2 = [])) ∧
    wait_input t prompt intr eof (InputResult.line s)
      = if (pyPartitionSpace s).1.length ≠ 0 then
          run_command { t with terminated := false }
            (pyPartitionSpace s).1 (pyPartitionSpace s).2
        else ({ t with terminated := false }, []) := by
  obtain ⟨h1, h2⟩ := pyPartitionSpace_spec s
  exact ⟨h1, h2, rfl⟩

/-- Claim C3, corrected at the run side: a fresh tree whose flag is already
True makes interactive return at once with zero steps run, zero reads and an
empty trace, although input outcomes are available; the claim that run
performs at least one step before any exit decision is false. -/
theorem C3_counterexample :
    interactive tTerm defPrompt defInterrupt defEof [InputResult.line "x".data]
      = some (tTerm, [], 0) := by
  decide

/-- Claim C3 as amended: interactive checks the flag before every step, the
first included, so a call made with the flag already True performs zero steps
and returns the tree unchanged with an empty trace; wait_input, by contrast,
does start fresh, behaving identically whatever the prior flag value. -/
theorem C3_run_checks_first (t : CommandTree) (prompt intr eof : List Char)
    (ins : List InputResult) (inp : InputResult) (h : t.terminated = true) :
    interactive t prompt intr eof ins = some (t, [], 0) ∧
    wait_input t prompt intr eof inp
      = wait_input { t with terminated := false } prompt intr eof inp := by
  constructor
  · unfold interactive
    rw [if_pos h]
  · rfl

/-- Witness for C3 at a concrete input: a fresh tree with the flag True. -/
theorem C3_run_checks_first_witness :
    interactive tTerm defPrompt defInterrupt defEof [InputResult.line "hello".data]
      = some (tTerm, [], 0) ∧
    wait_input tTerm defPrompt defInterrupt defEof (InputResult.line "hi".data)
      = wait_input { tTerm with terminated := false } defPrompt defInterrupt
          defEof (InputResult.line "hi".data) :=
  C3_run_checks_first tTerm defPrompt defInterrupt defEof
    [InputResult.line "hello".data] (InputResult.line "hi".data) rfl

/-- Claim C4: every wait_input call assigns False to the flag at its start,
before reading or dispatching, so its behaviour is independent of the prior
flag value; and when the handler the step runs does not set the flag, or no
dispatch happens, the flag is False after the step even when it was True
before. -/
theorem C4_flag_reset (t : CommandTree) (b : Bool)
    (prompt intr eof : List Char) (inp : InputResult)
    (hs : stepSetsFlag t (input_s prompt intr eof inp) = false) :
    wait_input { t with terminated := b } prompt intr eof inp
      = wait_input { t with terminated := false } prompt intr eof inp ∧
    (wait_input { t with terminated := b } prompt intr eof inp).1.terminated
      = false := by
  refine ⟨rfl, ?_⟩
  show (wait_input { t with terminated := false } prompt intr eof inp).1.terminated
    = false
  unfold wait_input
  by_cases hlen :
      (pyPartitionSpace (input_s prompt intr eof inp)).1.length ≠ 0
  · rw [if_pos hlen]
    refine run_command_flag _ _ _ ?_ rfl
    simp only [stepSetsFlag, stepHandler, if_pos hlen] at hs
    exact hs
  · rw [if_neg hlen]

/-- Witness for C4 at a concrete input: a tree with the flag True reading a
line whose command is unregistered, hence handled by the fallback, which does
not set the flag. -/
theorem C4_flag_reset_witness :
    wait_input { CommandTree.new with terminated := true } defPrompt
        defInterrupt defEof (InputResult.line "ping".data)
      = wait_input { CommandTree.new with terminated := false } defPrompt
          defInterrupt defEof (InputResult.line "ping".data) ∧
    (wait_input { CommandTree.new with terminated := true } defPrompt
        defInterrupt defEof (InputResult.line "ping".data)).1.terminated
      = false :=
  C4_flag_reset CommandTree.new true defPrompt defInterrupt defEof
    (InputResult.line "ping".data) (by decide)

/-- Claim C1, corrected: on the argument string bogus flag, the parser of the
scenario reports a usage error, with result None and diagnostic output
produced, yet the wrapped inner handler IS invoked for that dispatch,
receiving None: the trace holds its call. This refutes the conjunct that the
wrapped inner handler is never invoked on a parse failure. -/
theorem C1_counterexample :
    (parse_args forceParser (pySplitSpace "--bogus".data)).1 = none ∧
    (prints (parse_args forceParser (pySplitSpace "--bogus".data)).2).isEmpty
      = false ∧
    Event.innerCalled 7 "hello".data none
      ∈ (runHandler (Handler.argWrapped forceParser 7) CommandTree.new
          "hello".data "--bogus".data).2 := by
  decide

/-- Claim C1 as amended: whenever the parse of the tokenized argument string
fails, for a usage or validation error or a help request alike, the adapter
leaves the tree unchanged, raises nothing, attempts no process exit and
routes every diagnostic through the loop output function, but the wrapped
inner handler is invoked for that dispatch, with None in place of a parsed
namespace. -/
theorem C1_parse_failure (p : ParserSpec) (idf : Nat) (t : CommandTree)
    (cmd arg : List Char)
    (herr : (parse_args p (pySplitSpace arg)).1 = none) :
    (runHandler (Handler.argWrapped p idf) t cmd arg).1 = t ∧
    diagThroughTree (runHandler (Handler.argWrapped p idf) t cmd arg).2
      = true ∧
    Event.innerCalled idf cmd none
      ∈ (runHandler (Handler.argWrapped p idf) t cmd arg).2 := by
  refine ⟨rfl, ?_, ?_⟩
  · show diagThroughTree (Event.invoked (Handler.argWrapped p idf) cmd arg ::
        (parse_args p (pySplitSpace arg)).2
        ++ [Event.innerCalled idf cmd (parse_args p (pySplitSpace arg)).1])
      = true
    unfold diagThroughTree
    simp only [List.all_cons, List.all_append]
    rw [all_diagOk_of_printOut (parse_args_all_printOut p (pySplitSpace arg))]
    rfl
  · have htr : (runHandler (Handler.argWrapped p idf) t cmd arg).2
        = Event.invoked (Handler.argWrapped p idf) cmd arg ::
          (parse_args p (pySplitSpace arg)).2
          ++ [Event.innerCalled idf cmd none] := by
      show Event.invoked (Handler.argWrapped p idf) cmd arg ::
          (parse_args p (pySplitSpace arg)).2
          ++ [Event.innerCalled idf cmd (parse_args p (pySplitSpace arg)).1]
        = _
      rw [herr]
    rw [htr]
    simp

/-- Witness for C1 at a concrete input: the scenario parser on the bogus
flag. -/
theorem C1_parse_failure_witness :
    (runHandler (Handler.argWrapped forceParser 0) CommandTree.new
        "hello".data "--bogus".data).1 = CommandTree.new ∧
    diagThroughTree (runHandler (Handler.argWrapped forceParser 0)
        CommandTree.new "hello".data "--bogus".data).2 = true ∧
    Event.innerCalled 0 "hello".data none
      ∈ (runHandler (Handler.argWrapped forceParser 0) CommandTree.new
          "hello".data "--bogus".data).2 :=
  C1_parse_failure forceParser 0 CommandTree.new "hello".data "--bogus".data
    (by decide)

/-- Claim C10: invoking a wrapped handler with the empty argument string
passes the parser the one element token list holding the empty string, not
the empty token list; since the empty string matches no flag, it remains an
unconsumed extra, so the parse reports a usage error, returns None, and
prints diagnostics, even though every flag has a default. -/
theorem C10_empty_arg_token (p : ParserSpec) (idf : Nat) (t : CommandTree)
    (cmd : List Char) (hflag : lookupFlag p.flags [] = none) :
    pySplitSpace [] = [[]] ∧
    runHandler (Handler.argWrapped p idf) t cmd []
      = (t, Event.invoked (Handler.argWrapped p idf) cmd [] ::
          (parse_args p [[]]).2
          ++ [Event.innerCalled idf cmd (parse_args p [[]]).1]) ∧
    (parse_args p [[]]).1 = none ∧
    ((parse_args p [[]]).2).isEmpty = false := by
  have hne : ¬(p.addHelp = true ∧
      (([] : List Char) = "-h".data ∨ ([] : List Char) = "--help".data)) := by
    intro hcontra
    rcases hcontra.2 with hx | hx
    · exact absurd hx (by decide)
    · exact absurd hx (by decide)
  have hscan : pkaScan p [[]] (nsInit p.flags) = (nsInit p.flags, [[]], []) := by
    unfold pkaScan
    rw [if_neg hne, hflag]
    rfl
  have hpa : parse_args p [[]]
      = (none, CAP_error p ("unrecognized arguments: ".data ++ joinSpace [[]])) := by
    unfold parse_args parse_known_args
    rw [hscan]
    rw [if_neg (by decide :
      ¬("-h".data ∈ [([] : List Char)] ∨ "--help".data ∈ [([] : List Char)]))]
    rw [if_pos (by decide : ([([] : List Char)] : List (List Char)) ≠ [])]
    rfl
  have husage : format_usage p ≠ [] := by
    unfold format_usage
    intro hx
    rw [List.append_eq_nil] at hx
    exact absurd hx.2 (by decide)
  refine ⟨rfl, rfl, ?_, ?_⟩
  · rw [hpa]
  · rw [hpa]
    show (CAP_error p ("unrecognized arguments: ".data ++ joinSpace [[]])).isEmpty
      = false
    unfold CAP_error CAP_exit CAP_print_message
    rw [if_neg husage]
    rfl

/-- Witness for C10 at a concrete input: the scenario parser, whose single
flag has the option strings -y, -f and --force, none empty. -/
theorem C10_empty_arg_token_witness :
    pySplitSpace [] = [[]] ∧
    runHandler (Handler.argWrapped forceParser 4) CommandTree.new
        "hello".data []
      = (CommandTree.new,
         Event.invoked (Handler.argWrapped forceParser 4) "hello".data [] ::
          (parse_args forceParser [[]]).2
          ++ [Event.innerCalled 4 "hello".data (parse_args forceParser [[]]).1]) ∧
    (parse_args forceParser [[]]).1 = none ∧
    ((parse_args forceParser [[]]).2).isEmpty = false :=
  C10_empty_arg_token forceParser 4 CommandTree.new "hello".data (by decide)

end Concap
